/-
Formal model of mycompress.py (fusge/mycompress).

The Python source is embedded shallowly: the directory tree and the
per-file behaviour of the operating-system calls are explicit data, the
mutable accumulators of compressfiles become a state record threaded
through a fold, and an uncaught OSError is modelled by Except.error.
Python floats are modelled as exact rationals, and byte strings as
lists of naturals.
-/
import Mathlib

namespace Mycompress

/-- Behaviour of a single file on disk, as seen by compressfiles: its
base name, its size (os.stat().st_size), whether zipfile.is_zipfile
answers true on it, the value compression_ratio would return for it,
and which of the OS calls made on its behalf raise OSError
(opening it inside compression_ratio, creating the archive with
zipfile.ZipFile, zipobj.write, os.remove).  compressSize is
zipobj.infolist()[0].compress_size of the artifact when the write
succeeds. -/
structure PFile where
  name : String
  size : Nat
  isZip : Bool
  ratio : ℚ
  ratioErr : Bool
  zipCreateErr : Bool
  writeErr : Bool
  compressSize : Nat
  deleteErr : Bool
deriving DecidableEq

/-- The mutable state of one run of compressfiles (lines 84-87 of
src/mycompress.py): the two byte counters and the two name lists,
extended with the filesystem effects of the run (paths passed
successfully to os.remove, archive paths created by zipfile.ZipFile). -/
structure RunState where
  uncompressed_size : Nat
  compressed_size : Nat
  compressed_files : List String
  not_compressed_files : List String
  removed : List String
  artifacts : List String
deriving DecidableEq

/-- Initial state: all counters zero, all lists empty. -/
def initState : RunState :=
  { uncompressed_size := 0, compressed_size := 0, compressed_files := [],
    not_compressed_files := [], removed := [], artifacts := [] }

/-- Which branch of the per-file if/elif chain of compressfiles
(lines 97-124) a file takes.  The source merges hidden and
already-compressed into a single branch; the abort outcomes are the
uncaught OSError exits, failedWrite is the caught zipobj.write error,
compressedDeleteFailed is the caught os.remove error (which happens
after the file was already appended to compressed_files). -/
inductive Outcome where
  | skippedHiddenOrCompressed
  | skippedBelowThreshold
  | skippedPoorRatio
  | abortRatioError
  | abortZipCreateError
  | failedWrite
  | compressedDeleteFailed
  | compressed
deriving DecidableEq

/-- Directory tree fed to os.walk: a directory holds a list of files
and a list of named subdirectories. -/
inductive Tree where
  | node : List PFile → List (String × Tree) → Tree

/-- Result of os.path.join(dirpath, filename) (line 93), with the usual
slash separator. -/
def filepathOf (dirpath : String) (f : PFile) : String :=
  dirpath ++ "/" ++ f.name

mutual
/-- os.walk over a tree: yields the (dirpath, filelist) pairs top-down,
descending into every subdirectory whatever its name (os.walk never
filters hidden directories, and compressfiles does not prune the
dirnames list). -/
def walk (path : String) : Tree → List (String × List PFile)
  | .node files subdirs => (path, files) :: walkSubdirs path subdirs

/-- Walks each named subdirectory in order, extending the path. -/
def walkSubdirs (path : String) : List (String × Tree) → List (String × List PFile)
  | [] => []
  | (nm, t) :: rest => walk (path ++ "/" ++ nm) t ++ walkSubdirs path rest
end

/-- os.walk as called on a root path that may not exist: by default
os.walk ignores the error for a nonexistent or unreadable root and
yields no entries at all (onerror is None in the source). -/
def osWalk (dir_name : String) : Option Tree → List (String × List PFile)
  | none => []
  | some t => walk dir_name t

/-- All (dirpath, file) pairs visited by the walk, in order. -/
def visitedFiles (pairs : List (String × List PFile)) : List (String × PFile) :=
  (pairs.map fun pr => pr.2.map fun f => (pr.1, f)).flatten

/-- One iteration of the inner loop of compressfiles (lines 92-124)
over a single file.  First the file size is added to
uncompressed_size (line 95); then the if/elif chain runs: hidden or
already-compressed files and files below the threshold or with a poor
estimated ratio are appended to not_compressed_files with their size
added to compressed_size; an OSError raised by compression_ratio
(line 109) or by zipfile.ZipFile (line 116) is uncaught and aborts
the run; inside the try block a zipobj.write error is caught with only
a log (nothing recorded anywhere), and an os.remove error is caught
after compress_size was counted and the name appended to
compressed_files. -/
def processFile (thresh : Nat) (dirpath : String) (s : RunState) (f : PFile) :
    Except String RunState :=
  let filepath := filepathOf dirpath f
  let s1 := { s with uncompressed_size := s.uncompressed_size + f.size }
  if f.name.data.head? = some '.' ∨ f.isZip = true then
    .ok { s1 with not_compressed_files := s1.not_compressed_files ++ [f.name],
                  compressed_size := s1.compressed_size + f.size }
  else if f.size < thresh then
    .ok { s1 with not_compressed_files := s1.not_compressed_files ++ [f.name],
                  compressed_size := s1.compressed_size + f.size }
  else if f.ratioErr = true then
    .error "OSError: compression_ratio"
  else if ¬ f.ratio < mkRat 19 20 then
    .ok { s1 with not_compressed_files := s1.not_compressed_files ++ [f.name],
                  compressed_size := s1.compressed_size + f.size }
  else if f.zipCreateErr = true then
    .error "OSError: ZipFile"
  else
    let s2 := { s1 with artifacts := s1.artifacts ++ [filepath ++ ".zip"] }
    if f.writeErr = true then
      .ok s2
    else
      let s3 := { s2 with compressed_size := s2.compressed_size + f.compressSize,
                          compressed_files := s2.compressed_files ++ [f.name] }
      if f.deleteErr = true then
        .ok s3
      else
        .ok { s3 with removed := s3.removed ++ [filepath] }

/-- The branch selector of processFile: same condition chain, but
returning only which branch is taken. -/
def classify (thresh : Nat) (f : PFile) : Outcome :=
  if f.name.data.head? = some '.' ∨ f.isZip = true then .skippedHiddenOrCompressed
  else if f.size < thresh then .skippedBelowThreshold
  else if f.ratioErr = true then .abortRatioError
  else if ¬ f.ratio < mkRat 19 20 then .skippedPoorRatio
  else if f.zipCreateErr = true then .abortZipCreateError
  else if f.writeErr = true then .failedWrite
  else if f.deleteErr = true then .compressedDeleteFailed
  else .compressed

/-- State update of the three skip branches: size added to both
counters, name appended to not_compressed_files. -/
def skipUpd (s : RunState) (f : PFile) : RunState :=
  { s with uncompressed_size := s.uncompressed_size + f.size,
           compressed_size := s.compressed_size + f.size,
           not_compressed_files := s.not_compressed_files ++ [f.name] }

/-- State update when zipobj.write raises: the size was counted in the
total and the empty archive was created, nothing else is recorded. -/
def writeFailUpd (dirpath : String) (s : RunState) (f : PFile) : RunState :=
  { s with uncompressed_size := s.uncompressed_size + f.size,
           artifacts := s.artifacts ++ [filepathOf dirpath f ++ ".zip"] }

/-- State update of a successful write whose os.remove raises: the
compressed size is counted and the name listed in compressed_files,
but the original is not removed. -/
def compKeepUpd (dirpath : String) (s : RunState) (f : PFile) : RunState :=
  { s with uncompressed_size := s.uncompressed_size + f.size,
           compressed_size := s.compressed_size + f.compressSize,
           compressed_files := s.compressed_files ++ [f.name],
           artifacts := s.artifacts ++ [filepathOf dirpath f ++ ".zip"] }

/-- State update of a fully successful compression: as compKeepUpd and
the original path is removed. -/
def compRemoveUpd (dirpath : String) (s : RunState) (f : PFile) : RunState :=
  { s with uncompressed_size := s.uncompressed_size + f.size,
           compressed_size := s.compressed_size + f.compressSize,
           compressed_files := s.compressed_files ++ [f.name],
           removed := s.removed ++ [filepathOf dirpath f],
           artifacts := s.artifacts ++ [filepathOf dirpath f ++ ".zip"] }

/-- The inner for loop of compressfiles over one directory's file
list, stopping at the first uncaught OSError. -/
def processDirFiles (thresh : Nat) (dirpath : String) :
    RunState → List PFile → Except String RunState
  | s, [] => .ok s
  | s, f :: rest =>
    match processFile thresh dirpath s f with
    | .error e => .error e
    | .ok s' => processDirFiles thresh dirpath s' rest

/-- The outer for loop of compressfiles over the os.walk output
(lines 89-124), with the `if not filelist then continue` guard. -/
def runWalk (thresh : Nat) :
    RunState → List (String × List PFile) → Except String RunState
  | s, [] => .ok s
  | s, (dirpath, filelist) :: rest =>
    if filelist.isEmpty then runWalk thresh s rest
    else
      match processDirFiles thresh dirpath s filelist with
      | .error e => .error e
      | .ok s' => runWalk thresh s' rest

/-- Sequential processing of an already flattened list of
(dirpath, file) pairs; runWalk computes the same fold (the empty
filelist guard is a no-op). -/
def processSeq (thresh : Nat) :
    RunState → List (String × PFile) → Except String RunState
  | s, [] => .ok s
  | s, (d, f) :: rest =>
    match processFile thresh d s f with
    | .error e => .error e
    | .ok s' => processSeq thresh s' rest

/-- A whole run of the walking loop of compressfiles from the initial
state over a root path. -/
def runCompress (dir_name : String) (fs : Option Tree) (thresh : Nat) :
    Except String RunState :=
  runWalk thresh initState (osWalk dir_name fs)

/-- The dictionary returned by compressfiles (lines 126-138). -/
structure Results where
  saved_memory : ℚ
  saved_bytes : Int
  compressed_files : List String
  not_compressed_files : List String
deriving DecidableEq

/-- compressfiles (lines 61-138): runs the walking loop and builds the
results dictionary, guarding the percentage against an empty total.
An uncaught OSError propagates to the caller as the error case. -/
def compressfiles (dir_name : String) (fs : Option Tree) (thresh : Nat) :
    Except String Results :=
  match runWalk thresh initState (osWalk dir_name fs) with
  | .error e => .error e
  | .ok s =>
    if s.uncompressed_size = 0 then
      .ok { saved_memory := 0, saved_bytes := 0,
            compressed_files := s.compressed_files,
            not_compressed_files := s.not_compressed_files }
    else
      .ok { saved_memory := (1 - (s.compressed_size : ℚ) / (s.uncompressed_size : ℚ)) * 100,
            saved_bytes := (s.uncompressed_size : Int) - (s.compressed_size : Int),
            compressed_files := s.compressed_files,
            not_compressed_files := s.not_compressed_files }

/-- Outcomes under which the file ends up in compressed_files. -/
def isCompOutcome : Outcome → Bool
  | .compressed => true
  | .compressedDeleteFailed => true
  | _ => false

/-- Outcomes under which the file ends up in not_compressed_files. -/
def isSkipOutcome : Outcome → Bool
  | .skippedHiddenOrCompressed => true
  | .skippedBelowThreshold => true
  | .skippedPoorRatio => true
  | _ => false

/-- Outcomes that abort the whole run with an uncaught OSError. -/
def isAbortOutcome : Outcome → Bool
  | .abortRatioError => true
  | .abortZipCreateError => true
  | _ => false

/-- Total original size of a list of visited files. -/
def sumSizes (l : List (String × PFile)) : Nat :=
  (l.map fun p => p.2.size).sum

/-- What each outcome adds to the compressed_size counter: the original
size for skips, the artifact size for compressions (even when the
delete fails), nothing for a failed write or an abort. -/
def byteContribution (f : PFile) : Outcome → Nat
  | .skippedHiddenOrCompressed => f.size
  | .skippedBelowThreshold => f.size
  | .skippedPoorRatio => f.size
  | .compressed => f.compressSize
  | .compressedDeleteFailed => f.compressSize
  | _ => 0

/-- Sum of the compressed_size contributions over a visited list. -/
def contribSum (thresh : Nat) (l : List (String × PFile)) : Nat :=
  (l.map fun p => byteContribution p.2 (classify thresh p.2)).sum

/-- Names of the visited files that land in compressed_files. -/
def compNames (thresh : Nat) (l : List (String × PFile)) : List String :=
  (l.filter fun p => isCompOutcome (classify thresh p.2)).map fun p => p.2.name

/-- Names of the visited files that land in not_compressed_files. -/
def skipNames (thresh : Nat) (l : List (String × PFile)) : List String :=
  (l.filter fun p => isSkipOutcome (classify thresh p.2)).map fun p => p.2.name

/-- Paths removed by the run: exactly the fully successful
compressions. -/
def removedPaths (thresh : Nat) (l : List (String × PFile)) : List String :=
  (l.filter fun p => classify thresh p.2 = .compressed).map fun p => filepathOf p.1 p.2

/-- Original bytes of the visited files that land in
compressed_files. -/
def compBytes (thresh : Nat) (l : List (String × PFile)) : Nat :=
  ((l.filter fun p => isCompOutcome (classify thresh p.2)).map fun p => p.2.size).sum

/-- Original bytes of the visited files that land in
not_compressed_files. -/
def skipBytes (thresh : Nat) (l : List (String × PFile)) : Nat :=
  ((l.filter fun p => isSkipOutcome (classify thresh p.2)).map fun p => p.2.size).sum

/-- Model of sys.getsizeof on a Python bytes object: its length plus a
positive object-header overhead (33 bytes on 64-bit CPython).  It is
never zero, not even for an empty bytes object. -/
def getsizeof (overhead : Nat) (b : List Nat) : Nat :=
  b.length + overhead

/-- The sample read by compression_ratio (lines 172-173): seek to
int(st_size / 2), the floor midpoint (exact for any realistic size),
then read(100000). -/
def sampleOf (content : List Nat) : List Nat :=
  (content.drop (content.length / 2)).take 100000

/-- compression_ratio (lines 158-180), parameterised by the external
zlib.compress and by the getsizeof overhead: it compresses the midpoint
sample once and then compares sys.getsizeof of the two Python byte
objects, returning 1.0 only when sys.getsizeof(data) == 0. -/
def compression_ratio (zlibCompress : List Nat → List Nat) (overhead : Nat)
    (content : List Nat) : ℚ :=
  let data := sampleOf content
  let compressed_data := zlibCompress data
  if getsizeof overhead data = 0 then 1
  else mkRat (getsizeof overhead compressed_data) (getsizeof overhead data)

/-- Modelled from the spec: the estimator described by the
specification, dividing the compressed sample length by the sample
length and returning exactly 1 when the sample is empty.  It stands
beside compression_ratio, which instead measures Python object sizes
via sys.getsizeof. -/
def ratioFromSpec (zlibCompress : List Nat → List Nat) (content : List Nat) : ℚ :=
  let data := sampleOf content
  if data.length = 0 then 1
  else mkRat ((zlibCompress data).length) (data.length)

/-- A plain 500-byte file whose zipobj.write raises OSError. -/
def fileWriteErr : PFile :=
  { name := "a.bin", size := 500, isZip := false, ratio := mkRat 1 2,
    ratioErr := false, zipCreateErr := false, writeErr := true,
    compressSize := 100, deleteErr := false }

/-- A directory holding only fileWriteErr. -/
def treeWriteErr : Tree := .node [fileWriteErr] []

/-- A second write-failing file, for the list-membership claim. -/
def fileWriteErr2 : PFile := { fileWriteErr with name := "b.bin" }

/-- A directory holding only fileWriteErr2. -/
def treeWriteErr2 : Tree := .node [fileWriteErr2] []

/-- A file whose archive is written (120 bytes) but whose os.remove
raises OSError. -/
def fileDeleteErr : PFile :=
  { name := "data.txt", size := 500, isZip := false, ratio := mkRat 1 2,
    ratioErr := false, zipCreateErr := false, writeErr := false,
    compressSize := 120, deleteErr := true }

/-- A directory holding only fileDeleteErr. -/
def treeDeleteErr : Tree := .node [fileDeleteErr] []

/-- A file that compression_ratio cannot open. -/
def fileRatioErr : PFile :=
  { name := "c.bin", size := 100, isZip := false, ratio := 1,
    ratioErr := true, zipCreateErr := false, writeErr := false,
    compressSize := 10, deleteErr := false }

/-- An ordinary compressible file with no I/O trouble. -/
def fileGood : PFile :=
  { name := "d.txt", size := 300, isZip := false, ratio := mkRat 1 2,
    ratioErr := false, zipCreateErr := false, writeErr := false,
    compressSize := 90, deleteErr := false }

/-- A directory holding the unreadable file and then a good file. -/
def treeRatioErr : Tree := .node [fileRatioErr, fileGood] []

/-- A hidden file. -/
def fileHidden : PFile := { fileGood with name := ".e.txt" }

/-- A file detected by zipfile.is_zipfile as already an archive. -/
def fileZip : PFile := { fileGood with name := "f.zip", isZip := true }

/-- A file one byte below a threshold of 10. -/
def fileSmall : PFile := { fileGood with name := "g.txt", size := 9 }

/-- A file exactly at a threshold of 10. -/
def fileAtThreshold : PFile := { fileGood with name := "h.txt", size := 10 }

/-- A file whose estimated ratio sits exactly at the 0.95 bound. -/
def fileBoundary : PFile := { fileGood with name := "i.bin", ratio := mkRat 19 20 }

/-- The final state of the run over treeDeleteErr. -/
def stateDeleteErr : RunState :=
  { uncompressed_size := 500, compressed_size := 120,
    compressed_files := ["data.txt"], not_compressed_files := [],
    removed := [], artifacts := ["root/data.txt.zip"] }

/-- processFile takes exactly the branch selected by classify, with the
corresponding state update or uncaught error. -/
theorem processFile_eq (thresh : Nat) (dirpath : String) (s : RunState) (f : PFile) :
    processFile thresh dirpath s f =
      match classify thresh f with
      | .skippedHiddenOrCompressed => .ok (skipUpd s f)
      | .skippedBelowThreshold => .ok (skipUpd s f)
      | .skippedPoorRatio => .ok (skipUpd s f)
      | .abortRatioError => .error "OSError: compression_ratio"
      | .abortZipCreateError => .error "OSError: ZipFile"
      | .failedWrite => .ok (writeFailUpd dirpath s f)
      | .compressedDeleteFailed => .ok (compKeepUpd dirpath s f)
      | .compressed => .ok (compRemoveUpd dirpath s f) := by
  unfold processFile classify skipUpd writeFailUpd compKeepUpd compRemoveUpd
  split_ifs <;> rfl

/-- Unfolding of visitedFiles over a cons cell. -/
theorem visitedFiles_cons (d : String) (files : List PFile)
    (rest : List (String × List PFile)) :
    visitedFiles ((d, files) :: rest) =
      (files.map fun f => (d, f)) ++ visitedFiles rest := by
  simp [visitedFiles]

/-- processSeq splits over list append. -/
theorem processSeq_append (thresh : Nat) (l₁ l₂ : List (String × PFile)) :
    ∀ s : RunState, processSeq thresh s (l₁ ++ l₂) =
      match processSeq thresh s l₁ with
      | .error e => .error e
      | .ok s' => processSeq thresh s' l₂ := by
  induction l₁ with
  | nil => intro s; rfl
  | cons hd tl ih =>
    intro s
    obtain ⟨d, f⟩ := hd
    simp only [List.cons_append, processSeq]
    cases processFile thresh d s f with
    | error e => rfl
    | ok s' => exact ih s'

/-- The inner directory loop is the sequential fold over the tagged
file list. -/
theorem processDirFiles_eq (thresh : Nat) (d : String) (files : List PFile) :
    ∀ s, processDirFiles thresh d s files =
      processSeq thresh s (files.map fun f => (d, f)) := by
  induction files with
  | nil => intro s; rfl
  | cons f rest ih =>
    intro s
    simp only [List.map_cons, processDirFiles, processSeq]
    cases processFile thresh d s f with
    | error e => rfl
    | ok s' => exact ih s'

/-- The walking loop of compressfiles is the sequential fold over the
flattened visited list (the empty-filelist guard is a no-op). -/
theorem runWalk_eq (thresh : Nat) (pairs : List (String × List PFile)) :
    ∀ s, runWalk thresh s pairs = processSeq thresh s (visitedFiles pairs) := by
  induction pairs with
  | nil => intro s; rfl
  | cons hd rest ih =>
    intro s
    obtain ⟨d, files⟩ := hd
    rw [visitedFiles_cons, processSeq_append]
    by_cases hfe : files.isEmpty = true
    · have hnil : files = [] := by simpa using hfe
      subst hnil
      simp only [runWalk, hfe, if_true, List.map_nil, processSeq]
      exact ih s
    · simp only [runWalk, hfe, if_false, Bool.false_eq_true]
      rw [processDirFiles_eq]
      cases processSeq thresh s (files.map fun f => (d, f)) with
      | error e => rfl
      | ok s' => exact ih s'

/-- The fold completes exactly when no visited file reaches a branch
whose OSError is uncaught. -/
theorem processSeq_ok_iff (thresh : Nat) (l : List (String × PFile)) :
    ∀ s, (∃ s', processSeq thresh s l = .ok s') ↔
      ∀ p ∈ l, isAbortOutcome (classify thresh p.2) = false := by
  induction l with
  | nil => intro s; simp [processSeq]
  | cons hd tl ih =>
    intro s
    obtain ⟨d, f⟩ := hd
    simp only [processSeq, processFile_eq]
    cases hc : classify thresh f <;>
      simp [hc, isAbortOutcome, ih, List.mem_cons]

/-- Unfolding of sumSizes over a cons cell. -/
theorem sumSizes_cons (d : String) (f : PFile) (l : List (String × PFile)) :
    sumSizes ((d, f) :: l) = f.size + sumSizes l := by
  simp [sumSizes]

/-- Unfolding of contribSum over a cons cell. -/
theorem contribSum_cons (thresh : Nat) (d : String) (f : PFile)
    (l : List (String × PFile)) :
    contribSum thresh ((d, f) :: l) =
      byteContribution f (classify thresh f) + contribSum thresh l := by
  simp [contribSum]

/-- Unfolding of compNames over a cons cell. -/
theorem compNames_cons (thresh : Nat) (d : String) (f : PFile)
    (l : List (String × PFile)) :
    compNames thresh ((d, f) :: l) =
      (if isCompOutcome (classify thresh f) = true then [f.name] else []) ++
        compNames thresh l := by
  simp only [compNames, List.filter_cons]
  split_ifs <;> simp

/-- Unfolding of skipNames over a cons cell. -/
theorem skipNames_cons (thresh : Nat) (d : String) (f : PFile)
    (l : List (String × PFile)) :
    skipNames thresh ((d, f) :: l) =
      (if isSkipOutcome (classify thresh f) = true then [f.name] else []) ++
        skipNames thresh l := by
  simp only [skipNames, List.filter_cons]
  split_ifs <;> simp

/-- Unfolding of removedPaths over a cons cell. -/
theorem removedPaths_cons (thresh : Nat) (d : String) (f : PFile)
    (l : List (String × PFile)) :
    removedPaths thresh ((d, f) :: l) =
      (if classify thresh f = .compressed then [filepathOf d f] else []) ++
        removedPaths thresh l := by
  by_cases hcl : classify thresh f = .compressed <;>
    simp [removedPaths, List.filter_cons, hcl]

/-- On a completed fold the final accumulators are determined by the
visited files and their classification: the total counts every size,
compressed_size adds the per-outcome contributions, the two lists
collect the names selected by the comp/skip outcomes, and exactly the
fully successful compressions get removed. -/
theorem processSeq_ok_state (thresh : Nat) (l : List (String × PFile)) :
    ∀ s s', processSeq thresh s l = .ok s' →
      s'.uncompressed_size = s.uncompressed_size + sumSizes l ∧
      s'.compressed_size = s.compressed_size + contribSum thresh l ∧
      s'.compressed_files = s.compressed_files ++ compNames thresh l ∧
      s'.not_compressed_files = s.not_compressed_files ++ skipNames thresh l ∧
      s'.removed = s.removed ++ removedPaths thresh l := by
  induction l with
  | nil =>
    intro s s' h
    simp only [processSeq] at h
    cases h
    simp [sumSizes, contribSum, compNames, skipNames, removedPaths]
  | cons hd tl ih =>
    intro s s' h
    obtain ⟨d, f⟩ := hd
    simp only [processSeq, processFile_eq] at h
    revert h
    cases hc : classify thresh f <;> intro h
    case abortRatioError => simp at h
    case abortZipCreateError => simp at h
    case skippedHiddenOrCompressed =>
      obtain ⟨h1, h2, h3, h4, h5⟩ := ih _ s' h
      simp only [skipUpd] at h1 h2 h3 h4 h5
      refine ⟨?_, ?_, ?_, ?_, ?_⟩
      · rw [sumSizes_cons]; omega
      · rw [contribSum_cons, hc]; simp only [byteContribution]; omega
      · rw [compNames_cons, hc]; simp only [isCompOutcome]; simp [h3]
      · rw [skipNames_cons, hc]; simp only [isSkipOutcome]
        simp [h4, List.append_assoc]
      · rw [removedPaths_cons, hc]; simp [h5]
    case skippedBelowThreshold =>
      obtain ⟨h1, h2, h3, h4, h5⟩ := ih _ s' h
      simp only [skipUpd] at h1 h2 h3 h4 h5
      refine ⟨?_, ?_, ?_, ?_, ?_⟩
      · rw [sumSizes_cons]; omega
      · rw [contribSum_cons, hc]; simp only [byteContribution]; omega
      · rw [compNames_cons, hc]; simp only [isCompOutcome]; simp [h3]
      · rw [skipNames_cons, hc]; simp only [isSkipOutcome]
        simp [h4, List.append_assoc]
      · rw [removedPaths_cons, hc]; simp [h5]
    case skippedPoorRatio =>
      obtain ⟨h1, h2, h3, h4, h5⟩ := ih _ s' h
      simp only [skipUpd] at h1 h2 h3 h4 h5
      refine ⟨?_, ?_, ?_, ?_, ?_⟩
      · rw [sumSizes_cons]; omega
      · rw [contribSum_cons, hc]; simp only [byteContribution]; omega
      · rw [compNames_cons, hc]; simp only [isCompOutcome]; simp [h3]
      · rw [skipNames_cons, hc]; simp only [isSkipOutcome]
        simp [h4, List.append_assoc]
      · rw [removedPaths_cons, hc]; simp [h5]
    case failedWrite =>
      obtain ⟨h1, h2, h3, h4, h5⟩ := ih _ s' h
      simp only [writeFailUpd] at h1 h2 h3 h4 h5
      refine ⟨?_, ?_, ?_, ?_, ?_⟩
      · rw [sumSizes_cons]; omega
      · rw [contribSum_cons, hc]; simp only [byteContribution]; omega
      · rw [compNames_cons, hc]; simp only [isCompOutcome]; simp [h3]
      · rw [skipNames_cons, hc]; simp only [isSkipOutcome]; simp [h4]
      · rw [removedPaths_cons, hc]; simp [h5]
    case compressedDeleteFailed =>
      obtain ⟨h1, h2, h3, h4, h5⟩ := ih _ s' h
      simp only [compKeepUpd] at h1 h2 h3 h4 h5
      refine ⟨?_, ?_, ?_, ?_, ?_⟩
      · rw [sumSizes_cons]; omega
      · rw [contribSum_cons, hc]; simp only [byteContribution]; omega
      · rw [compNames_cons, hc]; simp only [isCompOutcome]
        simp [h3, List.append_assoc]
      · rw [skipNames_cons, hc]; simp only [isSkipOutcome]; simp [h4]
      · rw [removedPaths_cons, hc]; simp [h5]
    case compressed =>
      obtain ⟨h1, h2, h3, h4, h5⟩ := ih _ s' h
      simp only [compRemoveUpd] at h1 h2 h3 h4 h5
      refine ⟨?_, ?_, ?_, ?_, ?_⟩
      · rw [sumSizes_cons]; omega
      · rw [contribSum_cons, hc]; simp only [byteContribution]; omega
      · rw [compNames_cons, hc]; simp only [isCompOutcome]
        simp [h3, List.append_assoc]
      · rw [skipNames_cons, hc]; simp only [isSkipOutcome]; simp [h4]
      · rw [removedPaths_cons, hc]; simp [h5, List.append_assoc]

/-- Two mutually exclusive, jointly exhaustive Boolean predicates split
the mapped sum of a list. -/
theorem sum_filter_split {α : Type} (q r : α → Bool) (g : α → Nat) :
    ∀ l : List α,
      (∀ x ∈ l, (q x = true ∧ r x = false) ∨ (q x = false ∧ r x = true)) →
      ((l.filter q).map g).sum + ((l.filter r).map g).sum = (l.map g).sum := by
  intro l
  induction l with
  | nil => simp
  | cons a tl ih =>
    intro h
    have hsum := ih fun x hx => h x (List.mem_cons_of_mem a hx)
    rcases h a (List.mem_cons_self a tl) with ⟨hq, hr⟩ | ⟨hq, hr⟩ <;>
      simp [List.filter_cons, hq, hr] <;> omega

/-- Two mutually exclusive, jointly exhaustive Boolean predicates split
the length of a list. -/
theorem length_filter_split {α : Type} (q r : α → Bool) :
    ∀ l : List α,
      (∀ x ∈ l, (q x = true ∧ r x = false) ∨ (q x = false ∧ r x = true)) →
      (l.filter q).length + (l.filter r).length = l.length := by
  intro l
  induction l with
  | nil => simp
  | cons a tl ih =>
    intro h
    have hlen := ih fun x hx => h x (List.mem_cons_of_mem a hx)
    rcases h a (List.mem_cons_self a tl) with ⟨hq, hr⟩ | ⟨hq, hr⟩ <;>
      simp [List.filter_cons, hq, hr] <;> omega

/-- An outcome that is neither an abort nor the lost write-failure
branch puts the file on exactly one side of the comp/skip divide. -/
theorem outcome_split (o : Outcome) (hab : isAbortOutcome o = false)
    (hw : o ≠ .failedWrite) :
    (isCompOutcome o = true ∧ isSkipOutcome o = false) ∨
    (isCompOutcome o = false ∧ isSkipOutcome o = true) := by
  cases o <;> simp_all [isAbortOutcome, isCompOutcome, isSkipOutcome]

/-- A whole run is the flat fold over the visited files. -/
theorem runCompress_eq (dir_name : String) (fs : Option Tree) (thresh : Nat) :
    runCompress dir_name fs thresh =
      processSeq thresh initState (visitedFiles (osWalk dir_name fs)) :=
  runWalk_eq thresh (osWalk dir_name fs) initState

/-- Completion criterion for a whole run: it returns a result exactly
when no visited file reaches an uncaught-OSError branch. -/
theorem runCompress_ok_iff (dir_name : String) (fs : Option Tree) (thresh : Nat) :
    (∃ s, runCompress dir_name fs thresh = .ok s) ↔
      ∀ p ∈ visitedFiles (osWalk dir_name fs),
        isAbortOutcome (classify thresh p.2) = false := by
  rw [runCompress_eq]
  exact processSeq_ok_iff thresh (visitedFiles (osWalk dir_name fs)) initState

/-- Final-state characterisation of a completed whole run. -/
theorem runCompress_ok_state (dir_name : String) (fs : Option Tree) (thresh : Nat)
    (s : RunState) (h : runCompress dir_name fs thresh = .ok s) :
    s.uncompressed_size = sumSizes (visitedFiles (osWalk dir_name fs)) ∧
    s.compressed_size = contribSum thresh (visitedFiles (osWalk dir_name fs)) ∧
    s.compressed_files = compNames thresh (visitedFiles (osWalk dir_name fs)) ∧
    s.not_compressed_files = skipNames thresh (visitedFiles (osWalk dir_name fs)) ∧
    s.removed = removedPaths thresh (visitedFiles (osWalk dir_name fs)) := by
  rw [runCompress_eq] at h
  have hch := processSeq_ok_state thresh (visitedFiles (osWalk dir_name fs)) initState s h
  simpa [initState] using hch

/-- C1, counterexample: over a root holding one ordinary 500-byte file
whose zipobj.write raises OSError, the run completes, the 500 bytes are
counted in the total uncompressed bytes, yet the file lands in neither
list and contributes bytes to neither the compressed nor the
skipped-or-failed bucket, so the claimed conservation equation
0 + 0 = 500 fails (the summary even reports 100 percent saved). -/
theorem c1_conservation_counterexample :
    runCompress "root" (some treeWriteErr) 0 =
      .ok { uncompressed_size := 500, compressed_size := 0,
            compressed_files := [], not_compressed_files := [],
            removed := [], artifacts := ["root/a.bin.zip"] } ∧
    compBytes 0 (visitedFiles (osWalk "root" (some treeWriteErr))) +
        skipBytes 0 (visitedFiles (osWalk "root" (some treeWriteErr))) = 0 ∧
    sumSizes (visitedFiles (osWalk "root" (some treeWriteErr))) = 500 :=
  ⟨rfl, rfl, rfl⟩

/-- C1, amended: for every completed run of compressfiles in which no
visited file hits the caught zipobj.write failure, the original bytes
of the files counted as compressed plus the original bytes of the
files counted as skipped equal the total uncompressed bytes seen; a
file whose deletion raises an I/O error is counted on the compressed
side (with its artifact size, not its original size, toward the
remaining bytes).  A write failure breaks conservation: that file's
bytes are counted in the total but in neither bucket. -/
theorem c1_conservation_amended (dir : String) (t : Tree) (thresh : Nat)
    (s : RunState) (hrun : runCompress dir (some t) thresh = .ok s)
    (hw : ∀ p ∈ visitedFiles (osWalk dir (some t)),
            classify thresh p.2 ≠ .failedWrite) :
    compBytes thresh (visitedFiles (osWalk dir (some t))) +
        skipBytes thresh (visitedFiles (osWalk dir (some t))) =
      s.uncompressed_size ∧
    s.uncompressed_size = sumSizes (visitedFiles (osWalk dir (some t))) := by
  have hstate := runCompress_ok_state dir (some t) thresh s hrun
  have hok : ∀ p ∈ visitedFiles (osWalk dir (some t)),
      isAbortOutcome (classify thresh p.2) = false :=
    (runCompress_ok_iff dir (some t) thresh).mp ⟨s, hrun⟩
  have hsplit := sum_filter_split
    (fun p => isCompOutcome (classify thresh p.2))
    (fun p => isSkipOutcome (classify thresh p.2))
    (fun p : String × PFile => p.2.size)
    (visitedFiles (osWalk dir (some t)))
    (fun p hp => outcome_split (classify thresh p.2) (hok p hp) (hw p hp))
  exact ⟨by rw [hstate.1]; exact hsplit, hstate.1⟩

/-- C1, witness: a completed run over one well-behaved 300-byte file,
where both conservation equations hold with 300 bytes on the
compressed side. -/
theorem c1_conservation_amended_witness :
    compBytes 0 (visitedFiles (osWalk "root" (some (Tree.node [fileGood] [])))) +
        skipBytes 0 (visitedFiles (osWalk "root" (some (Tree.node [fileGood] [])))) =
      (RunState.mk 300 90 ["d.txt"] [] ["root/d.txt"] ["root/d.txt.zip"]).uncompressed_size ∧
    (RunState.mk 300 90 ["d.txt"] [] ["root/d.txt"] ["root/d.txt.zip"]).uncompressed_size =
      sumSizes (visitedFiles (osWalk "root" (some (Tree.node [fileGood] [])))) :=
  c1_conservation_amended "root" (Tree.node [fileGood] []) 0
    (RunState.mk 300 90 ["d.txt"] [] ["root/d.txt"] ["root/d.txt.zip"])
    rfl (by decide)

/-- C2, counterexample: over a root holding one ordinary 500-byte file
whose zipobj.write raises OSError, compressfiles returns normally but
the visited file b.bin appears in neither of the two returned lists. -/
theorem c2_exactly_one_counterexample :
    (compressfiles "root" (some treeWriteErr2) 0).toOption.map
        Results.compressed_files = some [] ∧
    (compressfiles "root" (some treeWriteErr2) 0).toOption.map
        Results.not_compressed_files = some [] ∧
    (visitedFiles (osWalk "root" (some treeWriteErr2))).map (fun p => p.2.name) =
      ["b.bin"] :=
  ⟨rfl, rfl, rfl⟩

/-- C2, amended: in every completed run in which no visited file hits
the caught zipobj.write failure, the two lists are exactly the names
of the visited files on the two sides of the comp/skip divide (a file
whose delete fails lands in compressed_files), and every visited file
contributes exactly one entry to exactly one of the two lists.  A file
whose write fails appears in neither list. -/
theorem c2_exactly_one_amended (dir : String) (t : Tree) (thresh : Nat)
    (s : RunState) (hrun : runCompress dir (some t) thresh = .ok s)
    (hw : ∀ p ∈ visitedFiles (osWalk dir (some t)),
            classify thresh p.2 ≠ .failedWrite) :
    s.compressed_files = compNames thresh (visitedFiles (osWalk dir (some t))) ∧
    s.not_compressed_files = skipNames thresh (visitedFiles (osWalk dir (some t))) ∧
    s.compressed_files.length + s.not_compressed_files.length =
      (visitedFiles (osWalk dir (some t))).length := by
  have hstate := runCompress_ok_state dir (some t) thresh s hrun
  have hok : ∀ p ∈ visitedFiles (osWalk dir (some t)),
      isAbortOutcome (classify thresh p.2) = false :=
    (runCompress_ok_iff dir (some t) thresh).mp ⟨s, hrun⟩
  have hsplit := length_filter_split
    (fun p => isCompOutcome (classify thresh p.2))
    (fun p => isSkipOutcome (classify thresh p.2))
    (visitedFiles (osWalk dir (some t)))
    (fun p hp => outcome_split (classify thresh p.2) (hok p hp) (hw p hp))
  refine ⟨hstate.2.2.1, hstate.2.2.2.1, ?_⟩
  rw [hstate.2.2.1, hstate.2.2.2.1]
  simpa [compNames, skipNames] using hsplit

/-- C2, witness: a completed run over a hidden file and a good file,
each landing in exactly one list, the lengths adding up to the two
visited files. -/
theorem c2_exactly_one_amended_witness :
    (RunState.mk 600 390 ["d.txt"] [".e.txt"] ["root/d.txt"] ["root/d.txt.zip"]).compressed_files =
      compNames 0 (visitedFiles (osWalk "root" (some (Tree.node [fileHidden, fileGood] [])))) ∧
    (RunState.mk 600 390 ["d.txt"] [".e.txt"] ["root/d.txt"] ["root/d.txt.zip"]).not_compressed_files =
      skipNames 0 (visitedFiles (osWalk "root" (some (Tree.node [fileHidden, fileGood] [])))) ∧
    (RunState.mk 600 390 ["d.txt"] [".e.txt"] ["root/d.txt"] ["root/d.txt.zip"]).compressed_files.length +
        (RunState.mk 600 390 ["d.txt"] [".e.txt"] ["root/d.txt"] ["root/d.txt.zip"]).not_compressed_files.length =
      (visitedFiles (osWalk "root" (some (Tree.node [fileHidden, fileGood] [])))).length :=
  c2_exactly_one_amended "root" (Tree.node [fileHidden, fileGood] []) 0
    (RunState.mk 600 390 ["d.txt"] [".e.txt"] ["root/d.txt"] ["root/d.txt.zip"])
    rfl (by decide)

/-- C3, counterexample: a file whose archive is written but whose
os.remove raises OSError is appended to compressed_files before the
delete is attempted, so it ends the run listed among compressed_files
(with its artifact size counted), contradicting the claim that it is
not listed there; its original is indeed left in place. -/
theorem c3_delete_failure_counterexample :
    runCompress "root" (some treeDeleteErr) 0 = .ok stateDeleteErr ∧
    "data.txt" ∈ stateDeleteErr.compressed_files ∧
    stateDeleteErr.removed = [] :=
  ⟨rfl, by simp [stateDeleteErr], rfl⟩

/-- C3, amended: when the archive write succeeds and the delete then
raises an OS-level error, the run continues and the file ends the run
listed among compressed_files (no FailedIOError outcome exists in the
code), while the original file is indeed still present at its original
path (it is never removed). -/
theorem c3_delete_failure_amended (dir : String) (t : Tree) (thresh : Nat)
    (s : RunState) (hrun : runCompress dir (some t) thresh = .ok s)
    (hnodup : ((visitedFiles (osWalk dir (some t))).map fun p => filepathOf p.1 p.2).Nodup)
    (p : String × PFile) (hp : p ∈ visitedFiles (osWalk dir (some t)))
    (hdel : classify thresh p.2 = .compressedDeleteFailed) :
    p.2.name ∈ s.compressed_files ∧ filepathOf p.1 p.2 ∉ s.removed := by
  obtain ⟨-, -, h3, -, h5⟩ := runCompress_ok_state dir (some t) thresh s hrun
  constructor
  · rw [h3]
    exact List.mem_map_of_mem _
      (List.mem_filter.mpr ⟨hp, by simp [hdel, isCompOutcome]⟩)
  · rw [h5]
    intro hmem
    obtain ⟨q, hq, hqe⟩ := List.mem_map.mp hmem
    have hqv : q ∈ visitedFiles (osWalk dir (some t)) := List.mem_of_mem_filter hq
    have hqc : classify thresh q.2 = .compressed := by
      have hqf := List.mem_filter.mp hq
      simpa using hqf.2
    have hqp : q = p := List.inj_on_of_nodup_map hnodup hqv hp hqe
    rw [hqp, hdel] at hqc
    exact Outcome.noConfusion hqc

/-- C3, witness: the concrete delete-failure run, where data.txt is
listed as compressed and its original path was never removed. -/
theorem c3_delete_failure_amended_witness :
    classify 0 fileDeleteErr = .compressedDeleteFailed ∧
    ("root", fileDeleteErr).2.name ∈ stateDeleteErr.compressed_files ∧
    filepathOf ("root", fileDeleteErr).1 ("root", fileDeleteErr).2 ∉ stateDeleteErr.removed :=
  ⟨rfl, c3_delete_failure_amended "root" treeDeleteErr 0 stateDeleteErr rfl
    (by decide) ("root", fileDeleteErr) (by decide) rfl⟩

/-- C4: the per-file policy is an ordered first-match chain.  A hidden
or already-compressed file is skipped whatever its ratio fields say; a
file below the threshold is skipped whatever its ratio fields say (so
the estimator is never consulted for either); a file reaching the
ratio gate with an unfavourable estimate is skipped; otherwise the
file proceeds to compression. -/
theorem c4_first_match (thresh : Nat) (d : String) (s : RunState) (f : PFile) :
    (f.name.data.head? = some '.' ∨ f.isZip = true →
      ∀ r e, processFile thresh d s { f with ratio := r, ratioErr := e } =
        .ok (skipUpd s f)) ∧
    (¬ (f.name.data.head? = some '.' ∨ f.isZip = true) → f.size < thresh →
      ∀ r e, processFile thresh d s { f with ratio := r, ratioErr := e } =
        .ok (skipUpd s f)) ∧
    (¬ (f.name.data.head? = some '.' ∨ f.isZip = true) → ¬ f.size < thresh →
      f.ratioErr = false → ¬ f.ratio < mkRat 19 20 →
      processFile thresh d s f = .ok (skipUpd s f)) ∧
    (¬ (f.name.data.head? = some '.' ∨ f.isZip = true) → ¬ f.size < thresh →
      f.ratioErr = false → f.ratio < mkRat 19 20 → f.zipCreateErr = false →
      f.writeErr = false → f.deleteErr = false →
      processFile thresh d s f = .ok (compRemoveUpd d s f)) := by
  refine ⟨?_, ?_, ?_, ?_⟩
  · intro h r e
    simp [processFile, skipUpd, h]
  · intro hn hlt r e
    simp only [not_or] at hn
    simp [processFile, skipUpd, hn.1, hn.2, hlt]
  · intro hn hlt he hr
    simp only [not_or] at hn
    simp [processFile, skipUpd, hn.1, hn.2, hlt, he, hr]
  · intro hn hlt he hr hzc hwe hde
    simp only [not_or] at hn
    simp [processFile, compRemoveUpd, hn.1, hn.2, hlt, he, hr, hzc, hwe, hde]

/-- C4, witness: one file per branch of the chain, with the hidden and
small files processed identically under scrambled ratio fields. -/
theorem c4_first_match_witness :
    processFile 0 "root" initState { fileHidden with ratio := 1, ratioErr := true } =
      .ok (skipUpd initState fileHidden) ∧
    processFile 10 "root" initState { fileSmall with ratio := 1, ratioErr := true } =
      .ok (skipUpd initState fileSmall) ∧
    processFile 0 "root" initState fileBoundary = .ok (skipUpd initState fileBoundary) ∧
    processFile 0 "root" initState fileGood = .ok (compRemoveUpd "root" initState fileGood) :=
  ⟨(c4_first_match 0 "root" initState fileHidden).1 (by decide) 1 true,
   (c4_first_match 10 "root" initState fileSmall).2.1 (by decide) (by decide) 1 true,
   (c4_first_match 0 "root" initState fileBoundary).2.2.1 (by decide) (by decide) rfl
     (by decide),
   (c4_first_match 0 "root" initState fileGood).2.2.2 (by decide) (by decide) rfl
     (by decide) rfl rfl rfl⟩

/-- C5: for a non-hidden, not-already-compressed file the
below-threshold branch is taken exactly when the size is strictly
below the configured threshold: a file exactly at the threshold is not
skipped for size, a file one byte below is. -/
theorem c5_threshold_strict (thresh : Nat) (f : PFile)
    (hh : ¬ f.name.data.head? = some '.') (hz : f.isZip = false) :
    classify thresh f = .skippedBelowThreshold ↔ f.size < thresh := by
  unfold classify
  rw [if_neg (by simp [hh, hz])]
  by_cases hlt : f.size < thresh
  · simp [hlt]
  · simp only [hlt, if_false]
    split_ifs <;> simp [hlt]

/-- C5, witness: with threshold 10, the 10-byte file is not skipped
for size while the 9-byte file is. -/
theorem c5_threshold_strict_witness :
    classify 10 fileAtThreshold ≠ .skippedBelowThreshold ∧
    classify 10 fileSmall = .skippedBelowThreshold :=
  ⟨fun h => absurd ((c5_threshold_strict 10 fileAtThreshold (by decide) rfl).mp h)
      (by decide),
   (c5_threshold_strict 10 fileSmall (by decide) rfl).mpr (by decide)⟩

/-- C6: a file that reaches the ratio gate (non-hidden, not already
compressed, at or above the threshold, estimator readable) and whose
zip write and delete would succeed is compressed exactly when its
estimated ratio is strictly below 0.95 (the exact rational 19/20), and
takes the poor-ratio skip exactly otherwise — in particular at a ratio
of exactly 0.95 it is skipped. -/
theorem c6_ratio_bound (thresh : Nat) (f : PFile)
    (hh : ¬ f.name.data.head? = some '.') (hz : f.isZip = false)
    (hsz : ¬ f.size < thresh) (he : f.ratioErr = false)
    (hzc : f.zipCreateErr = false) (hwe : f.writeErr = false)
    (hde : f.deleteErr = false) :
    (classify thresh f = .compressed ↔ f.ratio < mkRat 19 20) ∧
    (classify thresh f = .skippedPoorRatio ↔ ¬ f.ratio < mkRat 19 20) := by
  unfold classify
  rw [if_neg (by simp [hh, hz]), if_neg hsz, if_neg (by simp [he])]
  by_cases hr : f.ratio < mkRat 19 20 <;> simp [hr, hzc, hwe, hde]

/-- C6, witness: the file whose estimate is exactly 19/20 takes the
poor-ratio skip, while the file at 1/2 is classified compressed. -/
theorem c6_ratio_bound_witness :
    fileBoundary.ratio = mkRat 19 20 ∧
    classify 0 fileBoundary = .skippedPoorRatio ∧
    classify 0 fileGood = .compressed :=
  ⟨rfl,
   (c6_ratio_bound 0 fileBoundary (by decide) rfl (by decide) rfl rfl rfl rfl).2.mpr
     (by decide),
   (c6_ratio_bound 0 fileGood (by decide) rfl (by decide) rfl rfl rfl rfl).1.mpr
     (by decide)⟩

/-- C7: code bug.  compression_ratio measures both byte strings with
sys.getsizeof, whose value on a bytes object is its length plus a
positive object overhead and hence never zero, so the empty-sample
guard can never fire: on a zero-length file (empty sample) the
function returns (len(zlib.compress(b'')) + overhead) / overhead -
zlib.compress(b'') is 8 bytes - which is strictly greater than 1,
not the 1.0 the specification requires; the estimator modelled from
the spec does return 1 there. -/
theorem c7_getsizeof_bug (zc : List Nat → List Nat) (ov : Nat)
    (hov : 1 ≤ ov) (hz : (zc []).length = 8) :
    compression_ratio zc ov [] = mkRat ((8 + ov : Nat) : Int) ov ∧
    compression_ratio zc ov [] ≠ 1 ∧
    ratioFromSpec zc [] = 1 ∧
    getsizeof ov [] ≠ 0 := by
  have hnz : ov ≠ 0 := by omega
  have h1 : compression_ratio zc ov [] = mkRat ((8 + ov : Nat) : Int) ov := by
    simp [compression_ratio, getsizeof, sampleOf, hz, hnz]
  refine ⟨h1, ?_, rfl, by simp [getsizeof]; omega⟩
  rw [h1, Rat.mkRat_eq_div]
  have hq : (ov : ℚ) ≠ 0 := by exact_mod_cast hnz
  intro hEq
  rw [div_eq_one_iff_eq hq] at hEq
  have h8 : (8 + ov : Nat) = ov := by exact_mod_cast hEq
  omega

/-- C7, witness: with the CPython bytes overhead of 33 and a stand-in
for zlib.compress agreeing with its 8-byte output on empty input, an
empty file yields a ratio different from 1. -/
theorem c7_getsizeof_bug_witness :
    1 ≤ 33 ∧ ((fun _ : List Nat => List.replicate 8 0) []).length = 8 ∧
    compression_ratio (fun _ : List Nat => List.replicate 8 0) 33 [] ≠ 1 :=
  ⟨by decide, by simp,
   (c7_getsizeof_bug (fun _ : List Nat => List.replicate 8 0) 33 (by decide)
     (by simp)).2.1⟩

/-- C8, counterexample: the walk visits c.bin (unreadable when
compression_ratio opens it) and then d.txt, but the OSError raised
inside compression_ratio is uncaught, so the whole run aborts instead
of recording a failure for c.bin and continuing to d.txt. -/
theorem c8_abort_counterexample :
    runCompress "root" (some treeRatioErr) 0 =
      .error "OSError: compression_ratio" ∧
    (visitedFiles (osWalk "root" (some treeRatioErr))).map (fun p => p.2.name) =
      ["c.bin", "d.txt"] :=
  ⟨rfl, rfl⟩

/-- C8, amended: only the zipobj.write and os.remove errors inside the
try block are recovered locally; a run completes exactly when no
visited file reaches one of the uncaught branches - the OSError from
opening the file inside compression_ratio or from creating the
archive with zipfile.ZipFile - and any file reaching those aborts the
whole run. -/
theorem c8_abort_amended (dir : String) (t : Tree) (thresh : Nat) :
    (∃ s, runCompress dir (some t) thresh = .ok s) ↔
      ∀ p ∈ visitedFiles (osWalk dir (some t)),
        isAbortOutcome (classify thresh p.2) = false :=
  runCompress_ok_iff dir (some t) thresh

/-- C9, counterexample: os.walk ignores a nonexistent root by default
and yields nothing, so compressfiles returns the normal empty summary
(0 bytes, 0 percent, empty lists) instead of failing fatally before
walking. -/
theorem c9_missing_root_counterexample :
    osWalk "no_such_dir" none = [] ∧
    compressfiles "no_such_dir" none 0 =
      .ok { saved_memory := 0, saved_bytes := 0,
            compressed_files := [], not_compressed_files := [] } :=
  ⟨rfl, rfl⟩

/-- C9, amended: an invalid or nonexistent root is not fatal and is
not detected before walking: os.walk yields no entries and
compressfiles returns the normal empty summary for every such root and
every threshold (only logging a hint that the path may be wrong). -/
theorem c9_missing_root_amended (dir : String) (thresh : Nat) :
    compressfiles dir none thresh =
      .ok { saved_memory := 0, saved_bytes := 0,
            compressed_files := [], not_compressed_files := [] } :=
  rfl

/-- C10: the hidden-file test looks only at the file's own base name.
A file whose own name does not start with a dot, lying inside a
subdirectory of any name whatsoever - including one starting with a
dot - is visited by the walk, and (when well-behaved and selected by
the policy) is compressed, its original removed and its artifact
created inside that subdirectory. -/
theorem c10_hidden_dirs_descended (root dname : String) (thresh : Nat) (f : PFile)
    (hh : ¬ f.name.data.head? = some '.') (hz : f.isZip = false)
    (hsz : ¬ f.size < thresh) (he : f.ratioErr = false)
    (hr : f.ratio < mkRat 19 20) (hzc : f.zipCreateErr = false)
    (hwe : f.writeErr = false) (hde : f.deleteErr = false) :
    (root ++ "/" ++ dname, f) ∈
      visitedFiles (osWalk root (some (.node [] [(dname, .node [f] [])]))) ∧
    runCompress root (some (.node [] [(dname, .node [f] [])])) thresh =
      .ok { uncompressed_size := f.size, compressed_size := f.compressSize,
            compressed_files := [f.name], not_compressed_files := [],
            removed := [filepathOf (root ++ "/" ++ dname) f],
            artifacts := [filepathOf (root ++ "/" ++ dname) f ++ ".zip"] } := by
  constructor
  · simp [visitedFiles, osWalk, walk, walkSubdirs]
  · simp [runCompress, osWalk, walk, walkSubdirs, runWalk, processDirFiles,
      processFile, initState, hh, hz, hsz, he, hr, hzc, hwe, hde]

/-- C10, witness: a good file inside a directory named .git is visited
and fully compressed. -/
theorem c10_hidden_dirs_descended_witness :
    ("root" ++ "/" ++ ".git", fileGood) ∈
      visitedFiles (osWalk "root" (some (.node [] [(".git", .node [fileGood] [])]))) ∧
    runCompress "root" (some (.node [] [(".git", .node [fileGood] [])])) 0 =
      .ok { uncompressed_size := fileGood.size, compressed_size := fileGood.compressSize,
            compressed_files := [fileGood.name], not_compressed_files := [],
            removed := [filepathOf ("root" ++ "/" ++ ".git") fileGood],
            artifacts := [filepathOf ("root" ++ "/" ++ ".git") fileGood ++ ".zip"] } :=
  c10_hidden_dirs_descended "root" ".git" 0 fileGood (by decide) rfl (by decide) rfl
    (by decide) rfl rfl rfl

end Mycompress
